import Mathlib

/-!
Shallow embedding of `ck2.py`, the DARC contest-calendar grabber.

The script scrapes an HTML table: header rows (first cell holds a `<strong>`
element) carry a date or date range that is inherited by the following contest
rows (first cell holds an `<a>` link) until the next header row.  Events are
then deduplicated, filtered, printed as an aligned table, and optionally
exported to an ICS calendar.

HTML cells are modelled as records holding the already-extracted
`get_text(strip=True)` strings of the cell, of its `<strong>` child (if any)
and of its `<a>` child (if any); the scraper only ever consumes those strings.
Calls to `dateutil.parser.parse` are modelled by an oracle record
`DateTimeParser`; theorems that depend on the behaviour of dateutil at a
concrete string take that behaviour as an explicit hypothesis, and the
hypotheses are discharged by `dateutilFragModel`, a model of the observed
behaviour of python-dateutil on the fragment shapes this scraper produces.
-/

namespace CK2

/-- A calendar date, as in Python's `datetime.date`. -/
structure PDate where
  year : Nat
  month : Nat
  day : Nat
  deriving DecidableEq, Repr

/-- A time of day, as in Python's `datetime.time` (seconds are never used by the script). -/
structure PTime where
  hour : Nat
  minute : Nat
  deriving DecidableEq, Repr

/-- A timestamp, as in Python's `datetime.datetime`. -/
structure PDateTime where
  date : PDate
  time : PTime
  deriving DecidableEq, Repr

/-- `datetime.combine(d, t)` (ck2.py lines 103 and 107). -/
def combine (d : PDate) (t : PTime) : PDateTime := ⟨d, t⟩

/-- Gregorian leap-year rule, needed to model `date.replace`. -/
def isLeapYear (y : Nat) : Bool :=
  y % 4 == 0 && (y % 100 != 0 || y % 400 == 0)

/-- Number of days of month `m` in year `y`. -/
def daysInMonth (y m : Nat) : Nat :=
  if m == 2 then (if isLeapYear y then 29 else 28)
  else if m == 4 || m == 6 || m == 9 || m == 11 then 30
  else 31

/-- Python's `d.replace(year=cy)` (ck2.py lines 72 and 85).  It raises
`ValueError` (caught by the surrounding `try`) when the day does not exist in
the target month/year (Feb 29 of a leap year moved to a non-leap year). -/
def pyReplaceYear (cy : Nat) (d : PDate) : Option PDate :=
  if d.day ≤ daysInMonth cy d.month then some { d with year := cy } else none

/-- The non-breaking-space character whose occurrences ck2.py lines 61 and 94
replace by a plain space. -/
def nbspChar : Char := ' '

/-- Python's `s.replace(u"\xa0", " ")`: the pattern is a single character, so
the replacement is a character-by-character map. -/
def pyReplaceNbsp (s : String) : String :=
  (s.toList.map fun c => if c = nbspChar then ' ' else c).asString

/-- Python's `s.strip()`: drop whitespace from both ends. -/
def pyStrip (s : String) : String :=
  (((s.toList.dropWhile Char.isWhitespace).reverse.dropWhile Char.isWhitespace).reverse).asString

/-- Auxiliary for Python's `str.split(sep, 1)`: locate the first occurrence of
`c` and return the characters before and after it, or `none` if `c` is absent. -/
def splitOnceAux (c : Char) : List Char → Option (List Char × List Char)
  | [] => none
  | x :: xs =>
    if x = c then some ([], xs)
    else (splitOnceAux c xs).map (fun p => (x :: p.1, p.2))

/-- Python's `s.split(c, 1)`: the part before the first `c`, and the part after
it when `c` occurs in `s` (Python returns a 1- or 2-element list). -/
def pysplit1 (c : Char) (s : String) : String × Option String :=
  match splitOnceAux c s.toList with
  | none => (s, none)
  | some (a, b) => (a.asString, some b.asString)

/-- Python's `s.partition(c)`, keeping only the before/after parts (the
separator itself is discarded by ck2.py line 95); when `c` does not occur the
after-part is the empty string. -/
def pypartition2 (c : Char) (s : String) : String × String :=
  match splitOnceAux c s.toList with
  | none => (s, "")
  | some (a, b) => (a.asString, b.asString)

/-- Python's `s.count(c)` for a single-character needle. -/
def countChar (c : Char) (s : String) : Nat := s.toList.count c

/-- Python's `s.split('.')[-1]`: the last `.`-separated field, i.e. the run of
characters after the last dot — the empty string when `s` ends in a dot, all of
`s` when `s` has no dot. -/
def lastDotField (s : String) : String :=
  ((s.toList.reverse.takeWhile (fun c => c != '.')).reverse).asString

/-- Python's `s.lower()` (ASCII is all the script ever filters on). -/
def strLower (s : String) : String := (s.toList.map Char.toLower).asString

/-- Python's `s.replace(' ', '')`. -/
def stripSpaces (s : String) : String := (s.toList.filter (fun c => c != ' ')).asString

/-- The mode normalisation of ck2.py lines 124 and 135: lowercase, then drop spaces. -/
def pyNorm (s : String) : String := stripSpaces (strLower s)

/-- Whether `p` is a prefix of `l` (Boolean, by direct recursion). -/
def leadsWith : List Char → List Char → Bool
  | [], _ => true
  | _ :: _, [] => false
  | a :: as, b :: bs => a = b && leadsWith as bs

/-- Whether `p` occurs as a contiguous run inside `l` (Boolean). -/
def charsContains : List Char → List Char → Bool
  | p, [] => p.isEmpty
  | p, b :: bs => leadsWith p (b :: bs) || charsContains p bs

/-- Python's substring test `p in s`. -/
def pyIn (p s : String) : Bool := charsContains p.toList s.toList

/-- The specification-side reading of "p is a substring of s". -/
def SubstrOf (p s : String) : Prop := ∃ u v, u ++ p.toList ++ v = s.toList

/-- One event record as built by `scrape_all_contests` (ck2.py lines 111-117). -/
structure Event where
  title : String
  start_dt : PDateTime
  end_dt : Option PDateTime
  mode : String
  note : String
  deriving DecidableEq, Repr

/-- One `<td>` cell of a table row, reduced to the strings the scraper reads:
the stripped text of its `<strong>` child (if present), of its `<a>` child (if
present), and of the cell itself. -/
structure Cell where
  strong : Option String
  link : Option String
  text : String
  deriving DecidableEq, Repr

/-- Oracle for the two ways ck2.py calls `dateutil.parser.parse`:
`parseDate s` models `parser.parse(s, dayfirst=True).date()` and `parseTime s`
models `parser.parse(s).time()`, both returning `none` when the library raises.
The oracle is fixed per program run (dateutil defaults missing fields from the
run date). -/
structure DateTimeParser where
  parseDate : String → Option PDate
  parseTime : String → Option PTime

/-- The date-fragment derivation of a header row (ck2.py lines 61-82): split
the `<strong>` text on the first `-`, split each part on the first `.` to drop
a weekday-like prefix, and when a fragment has fewer than two dots (and, for
the first fragment, a second part exists) append the last `.`-field of the
second part as a year.  Returns `date_part1` and, when the text contained a
`-`, `date_part2`. -/
def headerDateFragments (txt0 : String) : String × Option String :=
  let txt := pyReplaceNbsp txt0
  let parts := pysplit1 '-' txt
  let first := pyStrip parts.1
  let parts1 := pysplit1 '.' first
  let dp1a := match parts1.2 with
    | some t => t
    | none => parts1.1
  let dp1 := if countChar '.' dp1a < 2 ∧ parts.2.isSome then
      dp1a ++ "." ++ lastDotField (pyStrip (parts.2.getD ""))
    else dp1a
  match parts.2 with
  | none => (dp1, none)
  | some r =>
    let second := pyStrip r
    let parts2 := pysplit1 '.' second
    let dp2a := match parts2.2 with
      | some t => t
      | none => parts2.1
    let dp2 := if countChar '.' dp2a < 2 then dp2a ++ "." ++ lastDotField second else dp2a
    (dp1, some dp2)

/-- The mutable state of the scraping loop: the events accumulated so far and
the tracked `current_start_date` / `current_end_date` slots. -/
structure ScrapeState where
  events : List Event
  csd : Option PDate
  ced : Option PDate
  deriving DecidableEq, Repr

/-- Processing of a header row's `<strong>` text (ck2.py lines 61-90): parse
`date_part1` into `current_start_date` (`None` on failure), then set
`current_end_date` from `date_part2` when a `-` was present (falling back to
the new `current_start_date` on failure) and to `current_start_date` otherwise.
Both parses force the year to `cy` via `date.replace`. -/
def processHeader (P : DateTimeParser) (cy : Nat) (st : ScrapeState) (stxt : String) :
    ScrapeState :=
  let frags := headerDateFragments stxt
  let csd' := (P.parseDate frags.1).bind (pyReplaceYear cy)
  let ced' := match frags.2 with
    | none => csd'
    | some dp2 =>
      match (P.parseDate dp2).bind (pyReplaceYear cy) with
      | some d2 => some d2
      | none => csd'
  { st with csd := csd', ced := ced' }

/-- Text of the `i`-th cell of a row, `""` when the row is shorter. -/
def cellTextAt (row : List Cell) (i : Nat) : String :=
  (((row.drop i).head?).map Cell.text).getD ""

/-- The time cell's text (ck2.py line 94): `tds[1]` stripped with NBSP
replaced, or `''` when the row has no second cell. -/
def timeText (row : List Cell) : String :=
  if 1 < row.length then pyReplaceNbsp (cellTextAt row 1) else ""

/-- ck2.py line 95: partition the time text on the first `-` and strip both sides. -/
def startEndStrs (row : List Cell) : String × String :=
  let p := pypartition2 '-' (timeText row)
  (pyStrip p.1, pyStrip p.2)

/-- The mode cell's text (ck2.py line 96). -/
def rowMode (row : List Cell) : String :=
  if 2 < row.length then cellTextAt row 2 else ""

/-- The note cell's text (ck2.py line 97). -/
def rowNote (row : List Cell) : String :=
  if 3 < row.length then cellTextAt row 3 else ""

/-- The `try` block of ck2.py lines 100-109: parse the start time (skipped when
the string is empty); an exception there aborts before the end time is
considered.  Then parse the end time (skipped when empty), combining it with
`current_end_date or current_start_date`; an exception there is swallowed,
keeping whatever `start_dt` was already assigned.  Returns `(start_dt, end_dt)`. -/
def tryParseTimes (P : DateTimeParser) (csd : PDate) (ced : Option PDate)
    (startStr endStr : String) : Option PDateTime × Option PDateTime :=
  if startStr = "" then
    if endStr = "" then (none, none)
    else
      match P.parseTime endStr with
      | some t2 => (none, some (combine (ced.getD csd) t2))
      | none => (none, none)
  else
    match P.parseTime startStr with
    | none => (none, none)
    | some t1 =>
      let sdt := combine csd t1
      if endStr = "" then (some sdt, none)
      else
        match P.parseTime endStr with
        | some t2 => (some sdt, some (combine (ced.getD csd) t2))
        | none => (some sdt, none)

/-- Processing of a contest row once the guard of ck2.py line 92 has passed
(`tds[0]` holds a link and `current_start_date` is set): derive the time
strings, mode and note, run the time parses, and append an event exactly when
`start_dt` was assigned (ck2.py lines 93-117). -/
def processContestRow (P : DateTimeParser) (st : ScrapeState) (row : List Cell)
    (title : String) (d : PDate) : ScrapeState :=
  let ss := startEndStrs row
  let dts := tryParseTimes P d st.ced ss.1 ss.2
  match dts.1 with
  | none => st
  | some sdt =>
    { st with events := st.events ++
        [{ title := title, start_dt := sdt, end_dt := dts.2,
           mode := rowMode row, note := rowNote row }] }

/-- One iteration of the row loop of ck2.py lines 55-117: rows without cells
are skipped; a `<strong>` in the first cell makes a header row; otherwise a row
is processed as a contest row exactly when its first cell holds a link and a
start date is currently tracked. -/
def processRow (P : DateTimeParser) (cy : Nat) (st : ScrapeState) (row : List Cell) :
    ScrapeState :=
  match row.head? with
  | none => st
  | some c0 =>
    match c0.strong with
    | some stxt => processHeader P cy st stxt
    | none =>
      match c0.link, st.csd with
      | some title, some d => processContestRow P st row title d
      | some _, none => st
      | none, _ => st

/-- `scrape_all_contests` (ck2.py lines 44-118) restricted to its pure core:
the HTTP fetch and HTML parsing are abstracted into the given list of rows,
`cy` is `date.today().year`, and `P` is the dateutil oracle. -/
def scrape_all_contests (P : DateTimeParser) (cy : Nat) (rows : List (List Cell)) :
    List Event :=
  (rows.foldl (processRow P cy) ⟨[], none, none⟩).events

/-- The skip condition of ck2.py line 127 (year filter): skip when the start
year differs from the current year and there is no end timestamp in the
current year either. -/
def yearSkip (cy : Nat) (e : Event) : Bool :=
  (e.start_dt.date.year != cy) &&
    (match e.end_dt with
     | none => true
     | some ed => ed.date.year != cy)

/-- The skip condition of ck2.py lines 130-132 (month filter): skip when the
start month is not in the month set and the end month (when an end timestamp
exists) is not in it either. -/
def monthSkip (months : List Nat) (e : Event) : Bool :=
  (!(months.contains e.start_dt.date.month)) &&
    (match e.end_dt with
     | none => true
     | some ed => !(months.contains ed.date.month))

/-- The mode test of ck2.py line 136: some (pre-normalised) pattern is a
substring of the normalised mode, or the normalised mode is a substring of the
pattern. -/
def modeMatch (pats : List String) (e : Event) : Bool :=
  pats.any fun pat => pyIn pat (pyNorm e.mode) || pyIn (pyNorm e.mode) pat

/-- The whole keep-predicate of the loop body of ck2.py lines 126-138: the
three `continue`s combined.  `pats` is already normalised (ck2.py line 124);
an empty list plays Python's `None`/empty-falsy role for both filters. -/
def keepEvent (cy : Nat) (months : List Nat) (pats : List String) (e : Event) : Bool :=
  !(yearSkip cy e) &&
    (months.isEmpty || !(monthSkip months e)) &&
    (pats.isEmpty || modeMatch pats e)

/-- `filter_events` (ck2.py lines 121-139). -/
def filter_events (cy : Nat) (events : List Event) (months : List Nat)
    (modes : List String) : List Event :=
  events.filter (keepEvent cy months (modes.map pyNorm))

/-- The deduplication key of ck2.py line 247. -/
def dedupeKey (e : Event) : String × PDateTime := (e.title, e.start_dt)

/-- The deduplication loop of ck2.py lines 244-250, with the `seen` set
modelled as a list of keys. -/
def dedupeAux (seen : List (String × PDateTime)) : List Event → List Event
  | [] => []
  | e :: rest =>
    if dedupeKey e ∈ seen then dedupeAux seen rest
    else e :: dedupeAux (dedupeKey e :: seen) rest

/-- The de-duplication step of `main` (ck2.py lines 243-250). -/
def dedupe_events (events : List Event) : List Event := dedupeAux [] events

/-- One VEVENT as assembled by `export_to_ics` (ck2.py lines 156-170), with the
fields that are functions of the input event and flags; the per-entry `uid`
(fresh UUID) and `dtstamp` (wall clock) are abstracted away. -/
structure IcsEvent where
  summary : String
  dtstart : PDateTime
  dtend : Option PDateTime
  description : String
  status : Option String
  deriving DecidableEq, Repr

/-- The calendar object assembled by `export_to_ics` (ck2.py lines 148-170). -/
structure IcsCalendar where
  prodid : String
  version : String
  calname : Option String
  method : Option String
  components : List IcsEvent
  deriving DecidableEq, Repr

/-- `export_to_ics` (ck2.py lines 142-170) restricted to the calendar value it
builds: directory creation, UUID/timestamp generation and the file write are
out of scope.  `METHOD:CANCEL` is added exactly when `purge` is set, and each
entry gets `STATUS:CANCELLED` exactly when `purge` is set. -/
def export_to_ics (events : List Event) (calname : Option String) (purge : Bool) :
    IcsCalendar :=
  { prodid := "-//DARC CT Contest Calendar//darc.de//"
    version := "2.0"
    calname := calname
    method := if purge then some "CANCEL" else none
    components := events.map fun e =>
      { summary := e.title
        dtstart := e.start_dt
        dtend := e.end_dt
        description := "Mode: " ++ e.mode ++
          (if e.note ≠ "" then "\nNotiz: " ++ e.note else "")
        status := if purge then some "CANCELLED" else none } }

/-- The column headers of `format_and_print_events` (ck2.py lines 182-190). -/
def headersCols : List String :=
  ["Contest", "Startdatum", "Startzeit", "Enddatum", "Endzeit", "Mode", "Notiz"]

/-- Zero-padded two-digit rendering, as in `strftime` `%d`, `%m`, `%H`, `%M`. -/
def pad2 (n : Nat) : String := if n < 10 then "0" ++ toString n else toString n

/-- Zero-padded four-digit rendering, as in `strftime` `%Y`. -/
def pad4 (n : Nat) : String :=
  if n < 10 then "000" ++ toString n
  else if n < 100 then "00" ++ toString n
  else if n < 1000 then "0" ++ toString n
  else toString n

/-- `strftime('%d.%m.%Y')` (ck2.py lines 195 and 197). -/
def fmtDate (d : PDate) : String := pad2 d.day ++ "." ++ pad2 d.month ++ "." ++ pad4 d.year

/-- `strftime('%H:%M')` (ck2.py lines 196 and 198). -/
def fmtTime (t : PTime) : String := pad2 t.hour ++ ":" ++ pad2 t.minute

/-- The row of display cells built for one event (ck2.py lines 194-207). -/
def eventCells (e : Event) : List String :=
  [e.title,
   fmtDate e.start_dt.date,
   fmtTime e.start_dt.time,
   (e.end_dt.map fun d => fmtDate d.date).getD "",
   (e.end_dt.map fun d => fmtTime d.time).getD "",
   e.mode,
   e.note]

/-- Column widths (ck2.py lines 210-213): start from the header lengths and
take the maximum with every cell length, column by column. -/
def colWidths (rows : List (List String)) : List Nat :=
  rows.foldl (fun ws r => ws.zipWith Nat.max (r.map String.length))
    (headersCols.map String.length)

/-- Join a list of cells with the two-space separator of ck2.py line 215. -/
def joinCols : List String → String
  | [] => ""
  | [x] => x
  | x :: y :: rest => x ++ "  " ++ joinCols (y :: rest)

/-- Left-justified padding to a column width, as Python's format spec pads
(a cell longer than the width is left untouched). -/
def padRightCol (s : String) (w : Nat) : String :=
  s ++ (List.replicate (w - s.length) ' ').asString

/-- One printed line: the cells padded to their column widths and joined by two
spaces (ck2.py line 215). -/
def fmtLine (ws : List Nat) (cells : List String) : String :=
  joinCols (List.zipWith padRightCol cells ws)

/-- `format_and_print_events` (ck2.py lines 180-226) as the list of lines it
prints: the header line and the dash rule always, then either the literal
placeholder (empty list) or the formatted event rows. -/
def format_and_print_events (events : List Event) : List String :=
  let rows := events.map eventCells
  let ws := colWidths rows
  [fmtLine ws headersCols,
   (List.replicate (ws.sum + 2 * (ws.length - 1)) '-').asString] ++
    (if rows.isEmpty then ["keine Einträge"] else rows.map (fmtLine ws))

/-- Leading decimal digits of a character list, and the remainder. -/
def takeDigits : List Char → List Char × List Char
  | [] => ([], [])
  | c :: cs =>
    if c.isDigit then
      let p := takeDigits cs
      (c :: p.1, p.2)
    else ([], c :: cs)

/-- Numeric value of a list of decimal digits. -/
def digitsToNat (l : List Char) : Nat :=
  l.foldl (fun n c => n * 10 + (c.toNat - 48)) 0

/-- Modelled from observed python-dateutil behaviour on the fragment shapes
this scraper derives, used only to instantiate the `DateTimeParser` oracle in
witnesses.  Observed with python-dateutil (dayfirst=True, default = the run
date `today`): `parse('.')` and `parse('xx')` raise; `parse('N.')` and
`parse('N..')` give day `N` in the month and year of `today` (raising when `N`
is not a day of that month); `parse('HH:MM').time()` and
`parse('HH:MMZ').time()` give that time of day. -/
def dateutilFragModel (today : PDate) : DateTimeParser where
  parseDate s :=
    let p := takeDigits (pyStrip s).toList
    if p.1 ≠ [] ∧ (p.2 = ['.'] ∨ p.2 = ['.', '.']) then
      let n := digitsToNat p.1
      if 1 ≤ n ∧ n ≤ daysInMonth today.year today.month then
        some ⟨today.year, today.month, n⟩
      else none
    else none
  parseTime s :=
    match s.toList with
    | h1 :: h2 :: ':' :: m1 :: m2 :: rest =>
      if h1.isDigit ∧ h2.isDigit ∧ m1.isDigit ∧ m2.isDigit ∧
          (rest = [] ∨ rest = ['Z']) then
        let h := digitsToNat [h1, h2]
        let m := digitsToNat [m1, m2]
        if h < 24 ∧ m < 60 then some ⟨h, m⟩ else none
      else none
    | _ => none

/-! Fixture values used by the witness theorems: the dateutil oracle is
instantiated with `dateutilFragModel` for a run on 2025-10-12, and the rows are
the ones named by the claims. -/

/-- A concrete run date for the witnesses: 2025-10-12. -/
def todayModel : PDate := ⟨2025, 10, 12⟩

/-- The concrete dateutil oracle used by the witnesses. -/
def pModel : DateTimeParser := dateutilFragModel todayModel

/-- The header row of claim C2: first cell holds `<strong>Sa 06.-So 07.01.</strong>`. -/
def hdrRowC2 : List Cell := [⟨some "Sa 06.-So 07.01.", none, "Sa 06.-So 07.01."⟩]

/-- The header row of claim C1's failing input: `<strong>06.01.-07.01.</strong>`. -/
def hdrRowC1 : List Cell := [⟨some "06.01.-07.01.", none, "06.01.-07.01."⟩]

/-- The contest row of claim C2: link `Test Contest`, time cell `15:00-18:00Z`, mode `CW`. -/
def rowTest : List Cell :=
  [⟨none, some "Test Contest", "Test Contest"⟩,
   ⟨none, none, "15:00-18:00Z"⟩,
   ⟨none, none, "CW"⟩]

/-- A contest row whose end time does not parse. -/
def rowBadEnd : List Cell :=
  [⟨none, some "Test Contest", "Test Contest"⟩,
   ⟨none, none, "15:00-zz"⟩,
   ⟨none, none, "CW"⟩]

/-- A scrape state with a tracked date range, as left by a successful header row. -/
def stTracked : ScrapeState := ⟨[], some ⟨2025, 1, 6⟩, some ⟨2025, 1, 7⟩⟩

/-- A CW event in the current year, used by the filter and export witnesses. -/
def evCW : Event := ⟨"Test Contest", ⟨⟨2025, 1, 6⟩, ⟨15, 0⟩⟩, none, "CW", ""⟩

/-- An SSB event in the current year. -/
def evSSB : Event := ⟨"Other Contest", ⟨⟨2025, 1, 6⟩, ⟨15, 0⟩⟩, none, "SSB", ""⟩

/-- An event whose mode is only spaces, so it normalises to the empty string. -/
def evBlankMode : Event := ⟨"Blank", ⟨⟨2025, 2, 1⟩, ⟨0, 0⟩⟩, none, "  ", ""⟩

/-! Shared lemmas about the string helpers and the deduplication loop. -/

theorem leadsWith_iff (p : List Char) : ∀ l : List Char,
    leadsWith p l = true ↔ ∃ t, p ++ t = l := by
  induction p with
  | nil => intro l; simp [leadsWith]
  | cons a as ih =>
    intro l
    cases l with
    | nil => simp [leadsWith]
    | cons b bs =>
      simp only [leadsWith, Bool.and_eq_true, decide_eq_true_eq, ih, List.cons_append,
        List.cons.injEq]
      constructor
      · rintro ⟨rfl, t, rfl⟩
        exact ⟨t, rfl, rfl⟩
      · rintro ⟨t, rfl, rfl⟩
        exact ⟨rfl, t, rfl⟩

theorem charsContains_iff (p : List Char) : ∀ l : List Char,
    charsContains p l = true ↔ ∃ u v, u ++ p ++ v = l := by
  intro l
  induction l with
  | nil =>
    simp [charsContains, List.isEmpty_iff, List.append_eq_nil]
  | cons b bs ih =>
    simp only [charsContains, Bool.or_eq_true, leadsWith_iff, ih]
    constructor
    · rintro (⟨t, ht⟩ | ⟨u, v, rfl⟩)
      · exact ⟨[], t, by simpa using ht⟩
      · exact ⟨b :: u, v, rfl⟩
    · rintro ⟨u, v, h⟩
      cases u with
      | nil =>
        left
        exact ⟨v, by simpa using h⟩
      | cons x xs =>
        right
        rw [List.cons_append, List.cons_append] at h
        injection h with h1 h2
        exact ⟨xs, v, h2⟩

theorem pyIn_iff (p s : String) : pyIn p s = true ↔ SubstrOf p s :=
  charsContains_iff p.toList s.toList

theorem charsContains_nil (l : List Char) : charsContains [] l = true := by
  cases l <;> simp [charsContains, leadsWith]

theorem dedupeAux_sublist (l : List Event) :
    ∀ seen, (dedupeAux seen l).Sublist l := by
  induction l with
  | nil => intro seen; simp [dedupeAux]
  | cons e rest ih =>
    intro seen
    by_cases h : dedupeKey e ∈ seen
    · rw [dedupeAux, if_pos h]
      exact (ih seen).trans (List.sublist_cons_self e rest)
    · rw [dedupeAux, if_neg h]
      exact (ih _).cons₂ e

theorem dedupeAux_mem (l : List Event) :
    ∀ seen e, e ∈ dedupeAux seen l ↔
      dedupeKey e ∉ seen ∧
        l.find? (fun x => decide (dedupeKey x = dedupeKey e)) = some e := by
  induction l with
  | nil => intro seen e; simp [dedupeAux]
  | cons x rest ih =>
    intro seen e
    by_cases hx : dedupeKey x ∈ seen
    · rw [dedupeAux, if_pos hx, ih]
      constructor
      · rintro ⟨hne, hf⟩
        refine ⟨hne, ?_⟩
        rw [List.find?_cons_of_neg]
        · exact hf
        · simp only [decide_eq_true_eq]
          intro hkk
          exact hne (hkk ▸ hx)
      · rintro ⟨hne, hf⟩
        refine ⟨hne, ?_⟩
        rw [List.find?_cons_of_neg] at hf
        · exact hf
        · simp only [decide_eq_true_eq]
          intro hkk
          exact hne (hkk ▸ hx)
    · rw [dedupeAux, if_neg hx]
      simp only [List.mem_cons, ih]
      by_cases he : e = x
      · subst he
        simp only [List.mem_cons, not_or, true_or, true_iff]
        refine ⟨hx, ?_⟩
        rw [List.find?_cons_of_pos]
        simp
      · simp only [he, false_or]
        by_cases hk : dedupeKey x = dedupeKey e
        · constructor
          · rintro ⟨hns, _⟩
            exact absurd (Or.inl hk.symm) hns
          · rintro ⟨_, hf⟩
            rw [List.find?_cons_of_pos _ (by simpa using hk)] at hf
            exact absurd (Option.some.inj hf).symm he
        · rw [List.find?_cons_of_neg _ (by simpa using hk)]
          simp only [List.mem_cons, not_or]
          constructor
          · rintro ⟨⟨_, hns⟩, hf⟩
            exact ⟨hns, hf⟩
          · rintro ⟨hns, hf⟩
            exact ⟨⟨fun h => hk h.symm, hns⟩, hf⟩

theorem dedupeAux_keys (l : List Event) :
    ∀ seen, ((dedupeAux seen l).map dedupeKey).Nodup ∧
      ∀ e ∈ dedupeAux seen l, dedupeKey e ∉ seen := by
  induction l with
  | nil => intro seen; simp [dedupeAux]
  | cons x rest ih =>
    intro seen
    by_cases hx : dedupeKey x ∈ seen
    · rw [dedupeAux, if_pos hx]
      obtain ⟨h1, h2⟩ := ih seen
      exact ⟨h1, h2⟩
    · rw [dedupeAux, if_neg hx]
      obtain ⟨h1, h2⟩ := ih (dedupeKey x :: seen)
      refine ⟨?_, ?_⟩
      · simp only [List.map_cons, List.nodup_cons]
        refine ⟨?_, h1⟩
        intro hmem
        obtain ⟨e, he, hke⟩ := List.mem_map.mp hmem
        exact (h2 e he) (by simp [hke])
      · intro e he
        rcases List.mem_cons.mp he with rfl | hmem
        · exact hx
        · exact fun hseen => (h2 e hmem) (List.mem_cons_of_mem _ hseen)

theorem tryParseTimes_start_fails (P : DateTimeParser) (d : PDate) (ced : Option PDate)
    (s1 s2 : String) (h : s1 = "" ∨ P.parseTime s1 = none) :
    (tryParseTimes P d ced s1 s2).1 = none := by
  by_cases h1 : s1 = ""
  · simp only [tryParseTimes, if_pos h1]
    by_cases h2 : s2 = ""
    · simp [h2]
    · simp only [if_neg h2]
      cases P.parseTime s2 <;> rfl
  · rcases h with h | h
    · exact absurd h h1
    · simp [tryParseTimes, if_neg h1, h]

theorem tryParseTimes_end_fails (P : DateTimeParser) (d : PDate) (ced : Option PDate)
    (s1 s2 : String) (t1 : PTime) (hne : s1 ≠ "") (ht : P.parseTime s1 = some t1)
    (he : s2 = "" ∨ P.parseTime s2 = none) :
    tryParseTimes P d ced s1 s2 = (some (combine d t1), none) := by
  simp only [tryParseTimes, if_neg hne, ht]
  rcases he with h | h
  · simp [h]
  · by_cases h2 : s2 = ""
    · simp [h2]
    · simp [if_neg h2, h]

theorem processContestRow_dates (P : DateTimeParser) (st : ScrapeState) (row : List Cell)
    (title : String) (d : PDate) :
    (processContestRow P st row title d).csd = st.csd ∧
      (processContestRow P st row title d).ced = st.ced := by
  simp only [processContestRow]
  cases (tryParseTimes P d st.ced (startEndStrs row).1 (startEndStrs row).2).1 <;>
    exact ⟨rfl, rfl⟩

/-! The claim theorems. -/

/-- C1: the claim says a header whose emphasised text is a well-formed
`DD.MM.-DD.MM.` range tracks those calendar days in the current year.  The
code contradicts it: for `06.01.-07.01.` the split on the first `.` consumes
the day digits, both derived fragments are `01..`, and dateutil (whose
observed behaviour at that string is the hypothesis) reads that as day 1 of
the run date's month — here both tracked dates become 2025-10-01, not
2025-01-06 and 2025-01-07. -/
theorem c1_header_day_digits_lost (P : DateTimeParser)
    (h : P.parseDate "01.." = some ⟨2025, 10, 1⟩) :
    (processRow P 2025 ⟨[], none, none⟩ hdrRowC1).csd = some ⟨2025, 10, 1⟩ ∧
    (processRow P 2025 ⟨[], none, none⟩ hdrRowC1).ced = some ⟨2025, 10, 1⟩ ∧
    ¬((processRow P 2025 ⟨[], none, none⟩ hdrRowC1).csd = some ⟨2025, 1, 6⟩ ∧
      (processRow P 2025 ⟨[], none, none⟩ hdrRowC1).ced = some ⟨2025, 1, 7⟩) := by
  have hf : headerDateFragments "06.01.-07.01." = ("01..", some "01..") := by decide
  have hrep : pyReplaceYear 2025 ⟨2025, 10, 1⟩ = some ⟨2025, 10, 1⟩ := by decide
  refine ⟨?_, ?_, ?_⟩ <;>
    simp [hdrRowC1, processRow, processHeader, hf, h, hrep]

/-- C1 witness: the dateutil hypothesis discharged by the observed-behaviour
model for a run on 2025-10-12. -/
theorem c1_header_day_digits_lost_witness :
    (processRow pModel 2025 ⟨[], none, none⟩ hdrRowC1).csd = some ⟨2025, 10, 1⟩ ∧
    (processRow pModel 2025 ⟨[], none, none⟩ hdrRowC1).ced = some ⟨2025, 10, 1⟩ ∧
    ¬((processRow pModel 2025 ⟨[], none, none⟩ hdrRowC1).csd = some ⟨2025, 1, 6⟩ ∧
      (processRow pModel 2025 ⟨[], none, none⟩ hdrRowC1).ced = some ⟨2025, 1, 7⟩) :=
  c1_header_day_digits_lost pModel (by decide)

/-- C2: the claim's end-to-end example fails on the code.  For the header text
`Sa 06.-So 07.01.` the first derived date fragment is the bare string `.`
(the split on the first `.` consumed `Sa 06`, and the appended year field is
empty), dateutil raises on it (hypothesis), so the tracked start date becomes
`None` and the following `Test Contest` row is skipped: no event at all is
produced, rather than the claimed event with start 2025-01-06T15:00. -/
theorem c2_end_to_end_example_fails (P : DateTimeParser)
    (h : P.parseDate "." = none) :
    scrape_all_contests P 2025 [hdrRowC2, rowTest] = [] ∧
    (List.foldl (processRow P 2025) ⟨[], none, none⟩ [hdrRowC2, rowTest]).csd = none := by
  have hf : headerDateFragments "Sa 06.-So 07.01." = (".", some "01..") := by decide
  cases hpd : P.parseDate "01.." with
  | none =>
    constructor <;>
      simp [scrape_all_contests, hdrRowC2, rowTest, processRow, processHeader, hf, h, hpd]
  | some d =>
    cases hrep : pyReplaceYear 2025 d <;> constructor <;>
      simp [scrape_all_contests, hdrRowC2, rowTest, processRow, processHeader, hf, h,
        hpd, hrep]

/-- C2 witness: the dateutil hypothesis discharged by the observed-behaviour model. -/
theorem c2_end_to_end_example_fails_witness :
    scrape_all_contests pModel 2025 [hdrRowC2, rowTest] = [] ∧
    (List.foldl (processRow pModel 2025) ⟨[], none, none⟩ [hdrRowC2, rowTest]).csd = none :=
  c2_end_to_end_example_fails pModel (by decide)

/-- C3: when a header row's date fragment fails to parse, the tracked start
date is reset to null; and a non-header row, while no start date is tracked,
changes nothing — in particular a row with a link emits no event — until a
later header row establishes a date. -/
theorem c3_parse_failure_resets_and_skips (P : DateTimeParser) (cy : Nat) :
    (∀ (st : ScrapeState) (c0 : Cell) (rest : List Cell) (stxt : String),
        c0.strong = some stxt →
        P.parseDate (headerDateFragments stxt).1 = none →
        (processRow P cy st (c0 :: rest)).csd = none) ∧
    (∀ (st : ScrapeState) (c0 : Cell) (rest : List Cell),
        c0.strong = none → st.csd = none →
        processRow P cy st (c0 :: rest) = st) := by
  constructor
  · intro st c0 rest stxt hs hp
    simp [processRow, processHeader, hs, hp]
  · intro st c0 rest hs hc
    cases hl : c0.link <;> simp [processRow, hs, hl, hc]

/-- C3 witness: a header whose fragment (`xx`) the model parser rejects resets
the tracked start date, and the pending contest row is then skipped whole. -/
theorem c3_parse_failure_resets_and_skips_witness :
    (processRow pModel 2025 stTracked [⟨some "xx", none, "xx"⟩]).csd = none ∧
    processRow pModel 2025 ⟨[], none, none⟩ rowTest = ⟨[], none, none⟩ :=
  ⟨(c3_parse_failure_resets_and_skips pModel 2025).1 stTracked
      ⟨some "xx", none, "xx"⟩ [] "xx" rfl (by decide),
   (c3_parse_failure_resets_and_skips pModel 2025).2 ⟨[], none, none⟩
      ⟨none, some "Test Contest", "Test Contest"⟩
      [⟨none, none, "15:00-18:00Z"⟩, ⟨none, none, "CW"⟩] rfl rfl⟩

/-- C4: for a contest row processed with a tracked start date, a start time
that fails to parse (or is empty, which dateutil equally rejects) drops the
whole row — no event is emitted; a start time that parses combined with an
end time that fails to parse (or is empty) emits the event with a null
`end_dt` and all other fields kept. -/
theorem c4_start_strict_end_lenient (P : DateTimeParser) (cy : Nat) (st : ScrapeState)
    (c0 : Cell) (rest : List Cell) (title : String) (d : PDate)
    (hs : c0.strong = none) (hl : c0.link = some title) (hc : st.csd = some d) :
    ((startEndStrs (c0 :: rest)).1 = "" ∨
        P.parseTime (startEndStrs (c0 :: rest)).1 = none →
      (processRow P cy st (c0 :: rest)).events = st.events) ∧
    (∀ t1, (startEndStrs (c0 :: rest)).1 ≠ "" →
      P.parseTime (startEndStrs (c0 :: rest)).1 = some t1 →
      ((startEndStrs (c0 :: rest)).2 = "" ∨
        P.parseTime (startEndStrs (c0 :: rest)).2 = none) →
      (processRow P cy st (c0 :: rest)).events = st.events ++
        [{ title := title, start_dt := combine d t1, end_dt := none,
           mode := rowMode (c0 :: rest), note := rowNote (c0 :: rest) }]) := by
  constructor
  · intro h
    have hnone := tryParseTimes_start_fails P d st.ced (startEndStrs (c0 :: rest)).1
      (startEndStrs (c0 :: rest)).2 h
    simp [processRow, hs, hl, hc, processContestRow, hnone]
  · intro t1 hne ht he
    have hpair := tryParseTimes_end_fails P d st.ced (startEndStrs (c0 :: rest)).1
      (startEndStrs (c0 :: rest)).2 t1 hne ht he
    simp [processRow, hs, hl, hc, processContestRow, hpair]

/-- C4 witness: with the tracked range 2025-01-06..07, the row with time cell
`15:00-zz` keeps the start 15:00 but gets a null end. -/
theorem c4_start_strict_end_lenient_witness :
    (processRow pModel 2025 stTracked rowBadEnd).events =
      stTracked.events ++
        [{ title := "Test Contest", start_dt := combine ⟨2025, 1, 6⟩ ⟨15, 0⟩,
           end_dt := none, mode := rowMode rowBadEnd, note := rowNote rowBadEnd }] :=
  (c4_start_strict_end_lenient pModel 2025 stTracked
      ⟨none, some "Test Contest", "Test Contest"⟩
      [⟨none, none, "15:00-zz"⟩, ⟨none, none, "CW"⟩]
      "Test Contest" ⟨2025, 1, 6⟩ rfl rfl rfl).2
    ⟨15, 0⟩ (by decide) (by decide) (Or.inr (by decide))

/-- C8: only header rows touch the tracked date slots: a row without cells, a
row whose first cell has no emphasis marker (with or without a link), leaves
`current_start_date` and `current_end_date` unchanged. -/
theorem c8_only_headers_touch_dates (P : DateTimeParser) (cy : Nat) (st : ScrapeState)
    (row : List Cell)
    (h : row = [] ∨ ∃ c0 rest, row = c0 :: rest ∧ c0.strong = none) :
    (processRow P cy st row).csd = st.csd ∧ (processRow P cy st row).ced = st.ced := by
  rcases h with rfl | ⟨c0, rest, rfl, hs⟩
  · exact ⟨rfl, rfl⟩
  · cases hl : c0.link with
    | none => simp [processRow, hs, hl]
    | some title =>
      cases hc : st.csd with
      | none => simp [processRow, hs, hl, hc]
      | some d =>
        have := processContestRow_dates P st (c0 :: rest) title d
        simpa [processRow, hs, hl, hc] using this

/-- C8 witness: a contest row with a link leaves the tracked dates of the
state untouched. -/
theorem c8_only_headers_touch_dates_witness :
    (processRow pModel 2025 stTracked rowTest).csd = stTracked.csd ∧
    (processRow pModel 2025 stTracked rowTest).ced = stTracked.ced :=
  c8_only_headers_touch_dates pModel 2025 stTracked rowTest
    (Or.inr ⟨⟨none, some "Test Contest", "Test Contest"⟩,
      [⟨none, none, "15:00-18:00Z"⟩, ⟨none, none, "CW"⟩], rfl, rfl⟩)

/-- C5: deduplication keeps, for every `(title, start_dt)` key, exactly the
first event of the input in document order: the result is a sublist of the
input (so the relative order of survivors is the document order), no key
survives twice, and an event is in the result exactly when it is the first
element of the input carrying its key. -/
theorem c5_dedupe_keeps_first_occurrence (l : List Event) :
    (dedupe_events l).Sublist l ∧
    ((dedupe_events l).map dedupeKey).Nodup ∧
    ∀ e, e ∈ dedupe_events l ↔
      l.find? (fun x => decide (dedupeKey x = dedupeKey e)) = some e := by
  refine ⟨dedupeAux_sublist l [], (dedupeAux_keys l []).1, fun e => ?_⟩
  rw [dedupe_events, dedupeAux_mem]
  simp

/-- C6: with a non-empty mode filter, an event that passes the year and month
checks survives `filter_events` precisely when some supplied pattern, after
normalisation of both sides (lowercase, spaces removed), is a substring of the
event's normalised mode or contains it as a substring. -/
theorem c6_mode_filter_symmetric_containment (cy : Nat) (months : List Nat)
    (modes : List String) (e : Event)
    (hm : modes ≠ [])
    (hy : yearSkip cy e = false)
    (hmo : months = [] ∨ monthSkip months e = false) :
    e ∈ filter_events cy [e] months modes ↔
      ∃ p ∈ modes, SubstrOf (pyNorm p) (pyNorm e.mode) ∨
        SubstrOf (pyNorm e.mode) (pyNorm p) := by
  have hmonth : (months.isEmpty || !(monthSkip months e)) = true := by
    rcases hmo with h | h <;> simp [h]
  have hpats : (modes.map pyNorm).isEmpty = false := by
    cases modes with
    | nil => exact absurd rfl hm
    | cons a as => rfl
  have hmem : e ∈ filter_events cy [e] months modes ↔
      keepEvent cy months (modes.map pyNorm) e = true := by
    simp [filter_events, List.mem_filter]
  rw [hmem, keepEvent, hy, hmonth, hpats]
  simp only [Bool.not_false, Bool.true_and, Bool.false_or]
  rw [modeMatch, List.any_eq_true]
  constructor
  · rintro ⟨pat, hpat, hb⟩
    obtain ⟨p, hp, rfl⟩ := List.mem_map.mp hpat
    rcases Bool.or_eq_true_iff.mp hb with h | h
    · exact ⟨p, hp, Or.inl ((pyIn_iff _ _).mp h)⟩
    · exact ⟨p, hp, Or.inr ((pyIn_iff _ _).mp h)⟩
  · rintro ⟨p, hp, h | h⟩
    · exact ⟨pyNorm p, List.mem_map_of_mem _ hp,
        Bool.or_eq_true_iff.mpr (Or.inl ((pyIn_iff _ _).mpr h))⟩
    · exact ⟨pyNorm p, List.mem_map_of_mem _ hp,
        Bool.or_eq_true_iff.mpr (Or.inr ((pyIn_iff _ _).mpr h))⟩

/-- C6 witness: the pattern `cw` keeps the event with mode `CW` and drops the
one with mode `SSB`. -/
theorem c6_mode_filter_symmetric_containment_witness :
    evCW ∈ filter_events 2025 [evCW] [] ["cw"] ∧
    evSSB ∉ filter_events 2025 [evSSB] [] ["cw"] := by
  constructor
  · exact (c6_mode_filter_symmetric_containment 2025 [] ["cw"] evCW (by decide)
        (by decide) (Or.inl rfl)).mpr
      ⟨"cw", by simp, Or.inl ((pyIn_iff _ _).mp (by decide))⟩
  · intro hmem
    obtain ⟨p, hp, hor⟩ := (c6_mode_filter_symmetric_containment 2025 [] ["cw"] evSSB
      (by decide) (by decide) (Or.inl rfl)).mp hmem
    have hpcw : p = "cw" := by simpa using hp
    subst hpcw
    rcases hor with h | h
    · exact absurd ((pyIn_iff _ _).mpr h) (by decide)
    · exact absurd ((pyIn_iff _ _).mpr h) (by decide)

/-- C7: for every event list and calendar name, exporting with `purge = true`
puts the `CANCEL` method marker on the calendar and the `CANCELLED` status on
every generated entry, and exporting with `purge = false` produces neither. -/
theorem c7_purge_markers (events : List Event) (calname : Option String) :
    ((export_to_ics events calname true).method = some "CANCEL" ∧
      ∀ ev ∈ (export_to_ics events calname true).components,
        ev.status = some "CANCELLED") ∧
    ((export_to_ics events calname false).method = none ∧
      ∀ ev ∈ (export_to_ics events calname false).components, ev.status = none) := by
  refine ⟨⟨rfl, ?_⟩, ⟨rfl, ?_⟩⟩ <;>
  · intro ev hev
    simp only [export_to_ics, List.mem_map] at hev
    obtain ⟨e, _, rfl⟩ := hev
    rfl

/-- C7 witness: the markers at a concrete one-event list. -/
theorem c7_purge_markers_witness :
    (export_to_ics [evCW] none true).method = some "CANCEL" ∧
    (∀ ev ∈ (export_to_ics [evCW] none true).components,
      ev.status = some "CANCELLED") ∧
    (export_to_ics [evCW] none false).method = none ∧
    (∀ ev ∈ (export_to_ics [evCW] none false).components, ev.status = none) :=
  ⟨(c7_purge_markers [evCW] none).1.1, (c7_purge_markers [evCW] none).1.2,
   (c7_purge_markers [evCW] none).2.1, (c7_purge_markers [evCW] none).2.2⟩

/-- C9 counterexample: the claim says the placeholder is printed instead of a
header-only table, with no table beyond the placeholder for zero events.  In
fact the presenter prints the column-header line and the dash rule first, and
only then the placeholder: the output is not just the placeholder line, and it
does contain the header line of a table. -/
theorem c9_counterexample_header_still_printed :
    format_and_print_events [] ≠ ["keine Einträge"] ∧
    "Contest  Startdatum  Startzeit  Enddatum  Endzeit  Mode  Notiz" ∈
      format_and_print_events [] := by
  constructor
  · decide
  · decide

/-- C9 (amended): for an empty event list the presenter prints the column
header line and the separator rule as for any listing, followed by the literal
placeholder `keine Einträge` in place of any event rows. -/
theorem c9_empty_prints_placeholder_after_header :
    format_and_print_events [] =
      ["Contest  Startdatum  Startzeit  Enddatum  Endzeit  Mode  Notiz",
       "--------------------------------------------------------------",
       "keine Einträge"] := by
  decide

/-- C10: an event whose mode normalises to the empty string passes every
non-empty mode filter: the empty normalised mode is a substring of every
pattern, so the mode check succeeds and filtering with such modes equals
filtering with no mode filter at all. -/
theorem c10_empty_normalised_mode_passes (cy : Nat) (months : List Nat)
    (modes : List String) (e : Event)
    (hm : modes ≠ []) (hmode : pyNorm e.mode = "") :
    modeMatch (modes.map pyNorm) e = true ∧
    filter_events cy [e] months modes = filter_events cy [e] months [] := by
  have hmatch : modeMatch (modes.map pyNorm) e = true := by
    rw [modeMatch, List.any_eq_true]
    cases modes with
    | nil => exact absurd rfl hm
    | cons p ps =>
      refine ⟨pyNorm p, List.mem_map_of_mem _ (List.mem_cons_self _ _), ?_⟩
      rw [hmode]
      simp [pyIn, charsContains_nil]
  refine ⟨hmatch, ?_⟩
  have hkeep : keepEvent cy months (modes.map pyNorm) e =
      keepEvent cy months (([] : List String).map pyNorm) e := by
    rw [keepEvent, keepEvent, hmatch]
    simp
  simp [filter_events, List.filter_cons, hkeep]

/-- C10 witness: the event with a spaces-only mode passes the `cw` filter. -/
theorem c10_empty_normalised_mode_passes_witness :
    modeMatch (["cw"].map pyNorm) evBlankMode = true ∧
    filter_events 2025 [evBlankMode] [] ["cw"] =
      filter_events 2025 [evBlankMode] [] [] :=
  c10_empty_normalised_mode_passes 2025 [] ["cw"] evBlankMode (by decide) (by decide)

end CK2
